import Mathlib

/-!
Verification development for the isoclump numerical kinetics core.

Each Python function of `calc_funcs.py` / `core_functions.py` is embedded as
a Lean definition over the reals (machine floats are modelled as exact real
arithmetic, numpy vectorized operations as list/pointwise operations, and
fallible operations as `Except`).  Definitions follow the source line by
line; theorems settle the frozen claims about them.
-/

namespace Isoclump

/-- Tuple of isotope standard parameters `(R13_vpdb, R18_vpdb, R17_vpdb, lam17)`
as stored in the `d47_isoparams` registry. -/
structure IsoParams where
  R13_vpdb : ℝ
  R18_vpdb : ℝ
  R17_vpdb : ℝ
  lam17 : ℝ

/-- Name of the Brand et al. (2010) isotope-parameter registry entry. -/
def brandName : String := "Brand"

/-- Modelled from the spec: the isotope-parameter registry entry for
Brand et al. (2010).  The registry module (`dictionaries.py`) is not part of
the provided sources; the spec describes the registry as a closed set of
published calibrations `(R13_std, R18_std, R17_std, lam17)`.  The Brand
values used here are the published standard ratios, recorded as exact
rationals. -/
def brand : IsoParams :=
  { R13_vpdb := 0.01118
    R18_vpdb := 0.0020052
    R17_vpdb := 0.00038475
    lam17 := 0.528 }

/-- Modelled from the spec: the isotope-parameter registry `d47_isoparams`
(`dictionaries.py`, not in the provided sources), a read-only lookup from a
calibration name to its parameter tuple. -/
def d47_isoparams : String → Option IsoParams := fun s =>
  if s = brandName then some brand else none

/-- Embeds `R13 = (d13C/1000 + 1)*R13_vpdb` from `_calc_R_stoch`. -/
noncomputable def R13_of (d13C : ℝ) (ps : IsoParams) : ℝ :=
  (d13C / 1000 + 1) * ps.R13_vpdb

/-- Embeds `R18 = (d18O/1000 + 1)*R18_vpdb` from `_calc_R_stoch`. -/
noncomputable def R18_of (d18O : ℝ) (ps : IsoParams) : ℝ :=
  (d18O / 1000 + 1) * ps.R18_vpdb

/-- Embeds `R17 = R17_vpdb * (R18 / R18_vpdb)**lam17` from `_calc_R_stoch`
(real power `Real.rpow`, as the exponent is a non-integral float). -/
noncomputable def R17_of (d18O : ℝ) (ps : IsoParams) : ℝ :=
  ps.R17_vpdb * (R18_of d18O ps / ps.R18_vpdb) ^ ps.lam17

/-- Embeds `f12 = 1/(1+R13)` from `_calc_R_stoch`. -/
noncomputable def f12_of (d13C : ℝ) (ps : IsoParams) : ℝ :=
  1 / (1 + R13_of d13C ps)

/-- Embeds `f13 = R13*f12` from `_calc_R_stoch`. -/
noncomputable def f13_of (d13C : ℝ) (ps : IsoParams) : ℝ :=
  R13_of d13C ps * f12_of d13C ps

/-- Embeds `f16 = 1/(1+R17+R18)` from `_calc_R_stoch`. -/
noncomputable def f16_of (d18O : ℝ) (ps : IsoParams) : ℝ :=
  1 / (1 + R17_of d18O ps + R18_of d18O ps)

/-- Embeds `f17 = R17*f16` from `_calc_R_stoch`. -/
noncomputable def f17_of (d18O : ℝ) (ps : IsoParams) : ℝ :=
  R17_of d18O ps * f16_of d18O ps

/-- Embeds `f18 = R18*f16` from `_calc_R_stoch`. -/
noncomputable def f18_of (d18O : ℝ) (ps : IsoParams) : ℝ :=
  R18_of d18O ps * f16_of d18O ps

/-- Embeds `f44 = f12*f16*f16` from `_calc_R_stoch`. -/
noncomputable def f44_of (d13C d18O : ℝ) (ps : IsoParams) : ℝ :=
  f12_of d13C ps * f16_of d18O ps * f16_of d18O ps

/-- Embeds `f45 = f13*f16*f16 + 2*f12*f17*f16` from `_calc_R_stoch`. -/
noncomputable def f45_of (d13C d18O : ℝ) (ps : IsoParams) : ℝ :=
  f13_of d13C ps * f16_of d18O ps * f16_of d18O ps
    + 2 * f12_of d13C ps * f17_of d18O ps * f16_of d18O ps

/-- Embeds `f46 = 2*f12*f16*f18 + 2*f13*f17*f16 + f12*f17*f17` from
`_calc_R_stoch`. -/
noncomputable def f46_of (d13C d18O : ℝ) (ps : IsoParams) : ℝ :=
  2 * f12_of d13C ps * f16_of d18O ps * f18_of d18O ps
    + 2 * f13_of d13C ps * f17_of d18O ps * f16_of d18O ps
    + f12_of d13C ps * f17_of d18O ps * f17_of d18O ps

/-- Embeds `f47 = 2*f13*f16*f18 + 2*f12*f17*f18 + f13*f17*f17` from
`_calc_R_stoch`. -/
noncomputable def f47_of (d13C d18O : ℝ) (ps : IsoParams) : ℝ :=
  2 * f13_of d13C ps * f16_of d18O ps * f18_of d18O ps
    + 2 * f12_of d13C ps * f17_of d18O ps * f18_of d18O ps
    + f13_of d13C ps * f17_of d18O ps * f17_of d18O ps

/-- Embeds `_calc_R_stoch(d13C, d18O, iso_params)`: the returned triple
`(R45_stoch, R46_stoch, R47_stoch) = (f45/f44, f46/f44, f47/f44)`.  The
registry lookup at its head is `d47_isoparams`; the body below receives the
extracted parameter tuple. -/
noncomputable def calc_R_stoch (d13C d18O : ℝ) (ps : IsoParams) : ℝ × ℝ × ℝ :=
  (f45_of d13C d18O ps / f44_of d13C d18O ps,
   f46_of d13C d18O ps / f44_of d13C d18O ps,
   f47_of d13C d18O ps / f44_of d13C d18O ps)

/-- Embeds `_calc_Rpeq(R45_stoch, R46_stoch, R47_stoch, z)`: the equilibrium
pair concentration ratio, using the mean of SE15 Eqs. 13a and 13b. -/
noncomputable def calc_Rpeq (R45_stoch R46_stoch R47_stoch : ℝ) (z : ℕ) : ℝ :=
  let f44 := 1 / (1 + R45_stoch + R46_stoch + R47_stoch)
  let f45 := R45_stoch * f44
  let f46 := R46_stoch * f44
  let pa := f46 * (1 - (1 - f45) ^ z)
  let pb := f45 * (1 - (1 - f46) ^ z)
  let p := (pa + pb) / 2
  p / f44

/-- Embeds `_calc_R(n)`: the `(n+1) × n` Tikhonov smoothing matrix.  The
source allocates zeros, sets `R[0,0] = 1.0` and `R[-1,-1] = -1.0`, then for
every interior row `i` (`i ≠ 0`, `i ≠ n`) writes the first-difference stencil
`[-1, 1]` into columns `i-1, i`.  The shape is carried by the `Fin` types. -/
def calc_R (n : ℕ) : Fin (n + 1) → Fin n → ℚ := fun i j =>
  if i.val ≠ 0 ∧ i.val ≠ n ∧ j.val = i.val - 1 then -1
  else if i.val ≠ 0 ∧ i.val ≠ n ∧ j.val = i.val then 1
  else if i.val = n ∧ j.val = n - 1 then -1
  else if i.val = 0 ∧ j.val = 0 then 1
  else 0

/-- Embeds `_fHea14(t, lnkc, lnkd, lnk2)` pointwise in `t` (the numpy code
broadcasts the same scalar expression over the `t` array). -/
noncomputable def fHea14 (t lnkc lnkd lnk2 : ℝ) : ℝ :=
  let kc := Real.exp lnkc
  let kd := Real.exp lnkd
  let k2 := Real.exp lnk2
  Real.exp (-kc * t + (kd / k2) * (Real.exp (-k2 * t) - 1))

/-- Embeds `_fPH12(t, lnk, intercept)` pointwise in `t`. -/
noncomputable def fPH12 (t lnk intercept : ℝ) : ℝ :=
  intercept * Real.exp (-t * Real.exp lnk)

/-- Failure modes of the embedded numpy code.  `indexError` models an
out-of-bounds array access raising `IndexError`. -/
inductive CalcError
  | indexError
deriving DecidableEq

/-- Embeds `np.ones(n)`. -/
def ones (n : ℕ) : List ℝ :=
  List.replicate n 1

/-- Embeds `np.outer(u, v)` on 1-d arrays: the matrix with entry
`(i, j) = u[i] * v[j]`, as a row list. -/
def outer (u v : List ℝ) : List (List ℝ) :=
  u.map (fun ui => v.map (fun vj => ui * vj))

/-- Elementwise unary map over a dense matrix, as numpy ufuncs apply to a
2-d array. -/
def emap (f : ℝ → ℝ) (M : List (List ℝ)) : List (List ℝ) :=
  M.map (fun row => row.map f)

/-- Elementwise binary operation over two same-shape dense matrices, as
numpy broadcasting applies `*` to two 2-d arrays. -/
def ewise2 (f : ℝ → ℝ → ℝ) (M N : List (List ℝ)) : List (List ℝ) :=
  (M.zip N).map (fun rs => (rs.1.zip rs.2).map (fun ab => f ab.1 ab.2))

/-- Embeds `_calc_A(t, lam)`: `dlam = lam[1] - lam[0]` (an `IndexError` when
`lam` has fewer than two entries), `t_mat = outer(t, ones(nlam))`,
`lam_mat = outer(ones(nt), lam)`, and
`A = np.exp(-np.exp(lam_mat) * t_mat) * dlam`. -/
noncomputable def calc_A (t lam : List ℝ) : Except CalcError (List (List ℝ)) :=
  if lam.length < 2 then .error .indexError
  else
    let dlam := lam.getD 1 0 - lam.getD 0 0
    let t_mat := outer t (ones lam.length)
    let lam_mat := outer (ones t.length) lam
    .ok (emap (fun a => a * dlam)
          (emap Real.exp (ewise2 (fun a b => -a * b) (emap Real.exp lam_mat) t_mat)))

/-- Modelled from the spec: the heating-experiment context consumed by the
SE15 model function.  The `HeatingExperiment` class is not among the provided
sources (only the empty `D47Experiment` shell in `timedata.py`); per the spec
it supplies mean bulk `d13C`, `d18O` and an isotope-parameter set.  The
source computes the means of `he.dex[:,1]` and `he.dex[:,2]`; the context
here carries those means directly, together with the resolved parameter
tuple. -/
structure HeatingExperiment where
  d13C : ℝ
  d18O : ℝ
  iso_params : IsoParams

/-- Embeds one backward-Euler update of `_fSE15`:
`x[i+1] = inv(eye(2) - dt*A) @ (x[i] + dt*B)` with
`A = [[-a, b], [a, -(b+c)]]` and `B = [0, d]`, the 2×2 inverse written in
closed form (`inv M = adj M / det M`). -/
noncomputable def beStep (a b c d : ℝ) (dt : ℝ) (x : ℝ × ℝ) : ℝ × ℝ :=
  let m00 := 1 - dt * (-a)
  let m01 := 0 - dt * b
  let m10 := 0 - dt * a
  let m11 := 1 - dt * (-(b + c))
  let det := m00 * m11 - m01 * m10
  let r0 := x.1 + dt * 0
  let r1 := x.2 + dt * d
  ((m11 * r0 - m01 * r1) / det, (m00 * r1 - m10 * r0) / det)

/-- Trajectory of the backward-Euler loop of `_fSE15`: starting from the
state at the current time point, take one implicit step per consecutive pair
of time points — exactly `nt - 1` steps for `nt` time points. -/
noncomputable def beTraj (g : ℝ → ℝ × ℝ → ℝ × ℝ) : ℝ → List ℝ → ℝ × ℝ → List (ℝ × ℝ)
  | _, [], x => [x]
  | tcur, tnext :: rest, x => x :: beTraj g tnext rest (g (tnext - tcur) x)

/-- Embeds `_fSE15(t, lnk1f, lnkds, lnp0peq, D0, Deq, Dppeq, he)`: stochastic
ratios from the experiment context, the `lnkds → kdp` transform, the 2×2 rate
system, the backward-Euler loop over `t`, and the final conversion
`D = 1000*(x[:,0] - 1)`.  (The source indexes `x[0,:]`, so the empty-`t` case
is a numpy `IndexError`; it is mapped to the empty list here and exercised by
no claim.) -/
noncomputable def fSE15 (t : List ℝ) (lnk1f lnkds lnp0peq D0 Deq Dppeq : ℝ)
    (he : HeatingExperiment) : List ℝ :=
  match t with
  | [] => []
  | t0 :: ts =>
    let Rst := calc_R_stoch he.d13C he.d18O he.iso_params
    let R45_stoch := Rst.1
    let R46_stoch := Rst.2.1
    let R47_stoch := Rst.2.2
    let Rpeq := Dppeq * R47_stoch
    let kds := Real.exp lnkds
    let kdp := kds * ((R45_stoch - Rpeq) * (R46_stoch - Rpeq)) / Rpeq
    let p0peq := Real.exp lnp0peq
    let k1f := Real.exp lnk1f
    let Dpp0 := p0peq * Dppeq
    let Dp470 := D0 / 1000 + 1
    let Dp47eq := Deq / 1000 + 1
    let a := k1f
    let b := k1f * Dp47eq / Dppeq
    let c := kdp
    let d := kdp * Dppeq
    (beTraj (beStep a b c d) t0 ts (Dp470, Dpp0)).map (fun x => 1000 * (x.1 - 1))

/-- Embeds `pp = p.copy(); pp[i] += eps` from `_Jacobian`: the parameter
vector with entry `i` perturbed by `eps` and every other entry unchanged. -/
def perturbP (p : List ℝ) (i : ℕ) (eps : ℝ) : List ℝ :=
  p.set i (p.getD i 0 + eps)

/-- Embeds column `i` of `_Jacobian`: `(f(t, *pp) - f(t, *pm)) / (2*eps)`. -/
noncomputable def Jcol (f : List ℝ → List ℝ → List ℝ) (t p : List ℝ) (eps : ℝ) (i : ℕ) : List ℝ :=
  List.zipWith (fun u v => (u - v) / (2 * eps))
    (f t (perturbP p i eps)) (f t (perturbP p i (-eps)))

/-- Embeds `_Jacobian(f, t, p, eps)`: the matrix `np.zeros([nt, npar])` whose
column `i` is assigned `(f(t, *pp) - f(t, *pm)) / (2*eps)`; entries a column
does not cover keep the allocated `0` (the `getD` default). -/
noncomputable def Jacobian (f : List ℝ → List ℝ → List ℝ) (t p : List ℝ) (eps : ℝ) :
    List (List ℝ) :=
  (List.range t.length).map (fun r =>
    (List.range p.length).map (fun i => (Jcol f t p eps i).getD r 0))

/-- The sequence of applications of `f` performed by the `_Jacobian` loop, in
order: two per parameter index. -/
noncomputable def jacobianEvals (f : List ℝ → List ℝ → List ℝ) (t p : List ℝ) (eps : ℝ) :
    List (List ℝ) :=
  (List.range p.length).flatMap (fun i => [f t (perturbP p i eps), f t (perturbP p i (-eps))])

/-- Model of a Python argument that is expected to be a string: either an
actual string or some non-string value (`nonString`).  Python's `x in list`
on a list of strings is `False` for every non-string `x`. -/
inductive PyArg
  | pstr (s : String)
  | nonString
deriving DecidableEq

/-- Embeds Python `isinstance(x, str)`. -/
def PyArg.isStr : PyArg → Bool
  | .pstr _ => true
  | .nonString => false

/-- Embeds Python `x in names` for a list of string literals: equality
comparison against each element, always `False` for a non-string `x`. -/
def pyIn : PyArg → List String → Bool
  | .pstr s, names => names.contains s
  | .nonString, _ => false

/-- Accepted calibration names in `geologic_history`. -/
def calNames : List String := ["PH12", "SE15", "Bea17"]

/-- Accepted reference-frame names in `geologic_history`. -/
def rfNames : List String := ["Ghosh25", "Ghosh90", "CDES25", "CDES90"]

/-- The default calibration name `'Bea17'`. -/
def calBea17 : String := "Bea17"

/-- The default reference-frame name `'CDES90'`. -/
def rfCDES90 : String := "CDES90"

/-- An unregistered calibration name used by the spec's test property. -/
def bogusStr : String := "bogus"

/-- Errors raised by the validation block of `geologic_history`, one per
`raise` statement in source order. -/
inductive GHError
  | lenValueError
  | calValueError
  | calTypeError
  | rfValueError
  | rfTypeError
deriving DecidableEq

/-- Model-type tags of the kinetic-model descriptor (`ed.model`). -/
inductive ModelType
  | Hea14
  | HH20
  | PH12
  | SE15
deriving DecidableEq

/-- The four geologic-history forward-model functions imported by
`core_functions.py` (`_ghHea14`, `_ghHH20`, `_ghPH12`, `_ghSE15`); their
bodies are not among the provided sources, so the orchestration embedding
records which one each branch invokes. -/
inductive GHForward
  | ghHea14
  | ghHH20
  | ghPH12
  | ghSE15
deriving DecidableEq

/-- Which forward function each `geologic_history` branch calls to compute
`D` (`D = _gh...(t, *p, Deq, T, Tref)`).  The source's SE15 branch invokes
`_ghHH20`. -/
def gh_D_call : ModelType → GHForward
  | .Hea14 => .ghHea14
  | .HH20 => .ghHH20
  | .PH12 => .ghPH12
  | .SE15 => .ghHH20

/-- Which forward function the `lamfunc` closure of each `geologic_history`
branch calls (the closure handed to `_Jacobian`).  The source's SE15 branch
builds its closure over `_ghHH20`. -/
def gh_lamfunc_call : ModelType → GHForward
  | .Hea14 => .ghHea14
  | .HH20 => .ghHH20
  | .PH12 => .ghPH12
  | .SE15 => .ghHH20

/-- Embeds the validation block at the head of `geologic_history`, with the
source's exact `if`/`elif` structure and order: length check, calibration
membership (`ValueError`), `elif` calibration `isinstance` (`TypeError`),
reference-frame membership (`ValueError`), `elif` reference-frame
`isinstance` (`TypeError`). -/
def gh_validate (tlen Tlen : ℕ) (calibration ref_frame : PyArg) :
    Except GHError Unit :=
  if Tlen ≠ tlen then .error .lenValueError
  else if ¬ pyIn calibration calNames then .error .calValueError
  else if ¬ calibration.isStr then .error .calTypeError
  else if ¬ pyIn ref_frame rfNames then .error .rfValueError
  else if ¬ ref_frame.isStr then .error .rfTypeError
  else .ok ()

/-- Embeds `geologic_history(t, T, ed, ...)` at the level its claims need:
eager validation first, then dispatch on `ed.model`.  The numeric payload is
computed by the un-sourced `_gh*` functions, so the result records which
forward function the branch calls for `D` and which one its Jacobian closure
calls; an error means the function raised before any numerical work. -/
def geologic_history (tlen Tlen : ℕ) (model : ModelType)
    (calibration ref_frame : PyArg) : Except GHError (GHForward × GHForward) :=
  match gh_validate tlen Tlen calibration ref_frame with
  | .error e => .error e
  | .ok _ => .ok (gh_D_call model, gh_lamfunc_call model)

end Isoclump

namespace Isoclump

/-- Helper: in an interior row `i` (`0 < i < n`) of the smoothing matrix, the
entry at column `j` is `-1` on `j = i-1`, `1` on `j = i`, and `0` elsewhere,
written as a sum of two indicators. -/
theorem calc_R_interior_row (n : ℕ) (i : Fin (n + 1)) (h0 : 0 < i.val)
    (hn : i.val < n) (j : Fin n) :
    calc_R n i j =
      (if j = (⟨i.val - 1, by omega⟩ : Fin n) then (-1 : ℚ) else 0)
        + (if j = (⟨i.val, hn⟩ : Fin n) then 1 else 0) := by
  simp only [calc_R, Fin.ext_iff]
  split_ifs <;> first | (exfalso; omega) | norm_num

/-- C3: structure of the smoothing matrix `_calc_R(n)` for `n ≥ 1`: its shape
is `(n+1) × n` (carried by the `Fin` index types), entry `[0,0]` is exactly
`1.0`, entry `[n,n-1]` is exactly `-1.0`, every interior row `i` has `-1` at
column `i-1`, `1` at column `i` and `0` elsewhere, and every interior row
sums to `0`. -/
theorem C3_calc_R_structure (n : ℕ) (hn : 1 ≤ n) :
    calc_R n ⟨0, Nat.succ_pos n⟩ ⟨0, hn⟩ = 1 ∧
    calc_R n ⟨n, Nat.lt_succ_self n⟩ ⟨n - 1, by omega⟩ = -1 ∧
    (∀ (i : Fin (n + 1)) (j : Fin n), 0 < i.val → i.val < n →
      (j.val = i.val - 1 → calc_R n i j = -1) ∧
      (j.val = i.val → calc_R n i j = 1) ∧
      (j.val ≠ i.val - 1 → j.val ≠ i.val → calc_R n i j = 0)) ∧
    (∀ i : Fin (n + 1), 0 < i.val → i.val < n →
      ∑ j : Fin n, calc_R n i j = 0) := by
  refine ⟨?_, ?_, ?_, ?_⟩
  · simp only [calc_R, Fin.val_mk]
    rw [if_neg (by omega), if_neg (by omega), if_neg (by omega)]
    simp
  · simp only [calc_R, Fin.val_mk]
    rw [if_neg (by omega), if_neg (by omega)]
    simp
  · intro i j h0 hn'
    refine ⟨?_, ?_, ?_⟩ <;> intro hj <;> [skip; skip; intro hj2] <;>
      rw [calc_R_interior_row n i h0 hn' j] <;>
      simp [Fin.ext_iff, hj] <;> omega
  · intro i h0 hn'
    rw [Finset.sum_congr rfl (fun j _ => calc_R_interior_row n i h0 hn' j),
      Finset.sum_add_distrib, Finset.sum_ite_eq' Finset.univ,
      Finset.sum_ite_eq' Finset.univ]
    simp

/-- Witness for C3 at `n = 3`: the hypothesis `1 ≤ 3` holds and the theorem
gives the `-1` stencil entry of interior row `2`. -/
theorem C3_witness :
    1 ≤ 3 ∧ calc_R 3 ⟨2, by decide⟩ ⟨1, by decide⟩ = -1 :=
  ⟨by decide,
    ((C3_calc_R_structure 3 (by decide)).2.2.1 ⟨2, by decide⟩ ⟨1, by decide⟩
      (by decide) (by decide)).1 (by decide)⟩

/-- C4 counterexample: `_calc_A` called with a length-1 `lam` array does not
return the scalar curve — computing `dlam = lam[1] - lam[0]` reads `lam[1]`,
out of bounds for `nlam = 1`, so the call fails with an `IndexError`. -/
theorem C4_counterexample :
    calc_A [(0 : ℝ)] [(0 : ℝ)] = Except.error CalcError.indexError := by
  simp [calc_A]

/-- C4 (amended): for every time array `t` and every `lam` of length 1, the
forward-kernel builder fails with an `IndexError` (from the access `lam[1]`)
instead of reducing to the scalar curve. -/
theorem C4_amended (t lam : List ℝ) (h : lam.length = 1) :
    calc_A t lam = Except.error CalcError.indexError := by
  simp [calc_A, h]

/-- Witness for C4 at `t = [1]`, `lam = [0]`. -/
theorem C4_witness :
    ([(0 : ℝ)] : List ℝ).length = 1 ∧
      calc_A [(1 : ℝ)] [(0 : ℝ)] = Except.error CalcError.indexError :=
  ⟨by simp, C4_amended [(1 : ℝ)] [(0 : ℝ)] (by simp)⟩

/-- Helper: the backward-Euler loop produces the current state followed by
one new state per remaining time point: `nt - 1` steps for `nt` points. -/
theorem beTraj_length (g : ℝ → ℝ × ℝ → ℝ × ℝ) (tcur : ℝ) (ts : List ℝ)
    (x : ℝ × ℝ) : (beTraj g tcur ts x).length = ts.length + 1 := by
  induction ts generalizing tcur x with
  | nil => rfl
  | cons tnext rest ih => simp [beTraj, ih]

/-- C5: the SE15 backward-Euler integrator takes exactly `nt - 1` implicit
steps — the output has one entry per time point, the initial state plus one
step per consecutive pair — and called with the single time point `t = [0]`
it takes zero steps and returns exactly `[D0]`
(`1000*((D0/1000 + 1) - 1) = D0`). -/
theorem C5_fSE15_single_point :
    (∀ lnk1f lnkds lnp0peq D0 Deq Dppeq he,
      fSE15 [0] lnk1f lnkds lnp0peq D0 Deq Dppeq he = [D0]) ∧
    (∀ t0 ts lnk1f lnkds lnp0peq D0 Deq Dppeq he,
      (fSE15 (t0 :: ts) lnk1f lnkds lnp0peq D0 Deq Dppeq he).length
        = ts.length + 1) := by
  constructor
  · intro lnk1f lnkds lnp0peq D0 Deq Dppeq he
    show [(1000 : ℝ) * (D0 / 1000 + 1 - 1)] = [D0]
    congr 1
    ring
  · intro t0 ts lnk1f lnkds lnp0peq D0 Deq Dppeq he
    simp [fSE15, beTraj_length]

/-- C1: on a kinetic-model descriptor with model type SE15, `geologic_history`
does not dispatch to an SE15-specific forward function: both the `D`
computation and the `lamfunc` closure handed to `_Jacobian` invoke `_ghHH20`,
which is distinct from `_ghSE15`. -/
theorem C1_se15_dispatch_calls_hh20 :
    geologic_history 1 1 ModelType.SE15 (PyArg.pstr calBea17) (PyArg.pstr rfCDES90)
      = Except.ok (GHForward.ghHH20, GHForward.ghHH20) ∧
    gh_D_call ModelType.SE15 = GHForward.ghHH20 ∧
    gh_lamfunc_call ModelType.SE15 = GHForward.ghHH20 ∧
    GHForward.ghHH20 ≠ GHForward.ghSE15 := by
  refine ⟨rfl, rfl, rfl, ?_⟩
  decide

/-- Helper: no execution of `geologic_history` can raise either `TypeError`:
each `isinstance` check sits in an `elif` behind the membership check on a
list of strings, and a value passing the membership check is a string. -/
theorem gh_validate_typeError_unreachable (tlen Tlen : ℕ) (c r : PyArg) :
    gh_validate tlen Tlen c r ≠ Except.error GHError.calTypeError ∧
    gh_validate tlen Tlen c r ≠ Except.error GHError.rfTypeError := by
  unfold gh_validate
  cases c <;> cases r <;>
    simp only [pyIn, PyArg.isStr, Bool.not_eq_true, Bool.false_eq_true,
      not_false_eq_true] <;>
    split_ifs <;> simp_all

/-- C6: a non-string `calibration` (or `ref_frame`) argument makes
`geologic_history` raise `ValueError`, not the documented `TypeError`: the
membership check `calibration not in [...]` fires first for any non-string
value, and the `isinstance` `elif` branches are unreachable on every input. -/
theorem C6_nonstring_gets_valueerror :
    geologic_history 1 1 ModelType.PH12 PyArg.nonString (PyArg.pstr rfCDES90)
      = Except.error GHError.calValueError ∧
    geologic_history 1 1 ModelType.PH12 (PyArg.pstr calBea17) PyArg.nonString
      = Except.error GHError.rfValueError ∧
    (∀ tlen Tlen m c r,
      geologic_history tlen Tlen m c r ≠ Except.error GHError.calTypeError) ∧
    (∀ tlen Tlen m c r,
      geologic_history tlen Tlen m c r ≠ Except.error GHError.rfTypeError) := by
  refine ⟨rfl, rfl, ?_, ?_⟩ <;> intro tlen Tlen m c r <;>
    unfold geologic_history <;>
    cases hv : gh_validate tlen Tlen c r with
  | ok u => simp
  | error e =>
    simp only []
    intro hcontra
    cases hcontra
    first
      | exact (gh_validate_typeError_unreachable tlen Tlen c r).1 hv
      | exact (gh_validate_typeError_unreachable tlen Tlen c r).2 hv

/-- C7: `geologic_history` raises `ValueError` when `len(T) ≠ len(t)`, and
raises `ValueError` for any calibration string outside
`{PH12, SE15, Bea17}` (with matching lengths); in both cases the `Except`
value is an error produced by the validation block that runs before any
numerical work, so no partial result is returned. -/
theorem C7_validation_valueerrors :
    (∀ tlen Tlen m c r, Tlen ≠ tlen →
      geologic_history tlen Tlen m c r = Except.error GHError.lenValueError) ∧
    (∀ tlen m s r, calNames.contains s = false →
      geologic_history tlen tlen m (PyArg.pstr s) r
        = Except.error GHError.calValueError) := by
  constructor
  · intro tlen Tlen m c r h
    simp [geologic_history, gh_validate, h]
  · intro tlen m s r h
    have hmem : s ∉ calNames := by simpa using h
    simp [geologic_history, gh_validate, pyIn, hmem]

/-- Witness for C7: a concrete length mismatch (`len(T) = 2`, `len(t) = 1`)
and the concrete calibration string `'bogus'`. -/
theorem C7_witness :
    (2 : ℕ) ≠ 1 ∧ calNames.contains bogusStr = false ∧
    geologic_history 1 2 ModelType.Hea14 (PyArg.pstr calBea17) (PyArg.pstr rfCDES90)
      = Except.error GHError.lenValueError ∧
    geologic_history 1 1 ModelType.Hea14 (PyArg.pstr bogusStr) (PyArg.pstr rfCDES90)
      = Except.error GHError.calValueError :=
  ⟨by decide, by decide,
    C7_validation_valueerrors.1 1 2 ModelType.Hea14 (PyArg.pstr calBea17)
      (PyArg.pstr rfCDES90) (by decide),
    C7_validation_valueerrors.2 1 ModelType.Hea14 bogusStr
      (PyArg.pstr rfCDES90) (by decide)⟩

/-- Helper: `getD` through `(List.range n).map g` at an in-range index. -/
theorem getD_range_map {α : Type} (g : ℕ → α) (n r : ℕ) (hr : r < n) (d : α) :
    ((List.range n).map g).getD r d = g r := by
  rw [List.getD_eq_getElem _ d (by simpa using hr)]
  simp

/-- Helper: `getD` through `zipWith` at an index below both lengths. -/
theorem getD_zipWith (g : ℝ → ℝ → ℝ) (as bs : List ℝ) (r : ℕ)
    (ha : r < as.length) (hb : r < bs.length) :
    (List.zipWith g as bs).getD r 0 = g (as.getD r 0) (bs.getD r 0) := by
  rw [List.getD_eq_getElem _ _ (by simp [List.length_zipWith]; omega),
    List.getD_eq_getElem _ _ ha, List.getD_eq_getElem _ _ hb]
  exact List.getElem_zipWith

/-- Helper: perturbing parameter `k` does not change any other entry of the
parameter vector (the source perturbs a copy, and only at index `k`). -/
theorem perturbP_getD_ne (p : List ℝ) (k j : ℕ) (eps : ℝ) (h : j ≠ k) :
    (perturbP p k eps).getD j 0 = p.getD j 0 := by
  by_cases hj : j < p.length
  · rw [List.getD_eq_getElem _ _ (by simpa [perturbP] using hj),
      List.getD_eq_getElem _ _ hj]
    exact List.getElem_set_ne (Ne.symm h) _
  · have h1 : (perturbP p k eps).length = p.length := by simp [perturbP]
    rw [List.getD_eq_default _ _ (by rw [h1]; omega),
      List.getD_eq_default _ _ (by omega)]

/-- Helper: a `flatMap` of two-element blocks over `List.range n` has length
`2*n`, and block `k` sits at positions `2*k` and `2*k + 1`. -/
theorem flatMap_pairs_spec {α : Type} (F G : ℕ → List α) (n : ℕ) :
    ((List.range n).flatMap (fun i => [F i, G i])).length = 2 * n ∧
    (∀ k, k < n →
      ((List.range n).flatMap (fun i => [F i, G i])).getD (2 * k) [] = F k ∧
      ((List.range n).flatMap (fun i => [F i, G i])).getD (2 * k + 1) [] = G k) := by
  induction n with
  | zero => simp
  | succ n ih =>
    rw [List.range_succ, List.flatMap_append]
    refine ⟨by simp [ih.1]; try omega, ?_⟩
    intro k hk
    rcases Nat.lt_succ_iff_lt_or_eq.mp hk with h | h
    · rw [List.getD_append _ _ _ _ (by rw [ih.1]; omega),
        List.getD_append _ _ _ _ (by rw [ih.1]; omega)]
      exact ih.2 k h
    · subst h
      rw [List.getD_append_right _ _ _ _ (by rw [ih.1]; try omega),
        List.getD_append_right _ _ _ _ (by rw [ih.1]; try omega), ih.1]
      constructor
      · simp
      · have : 2 * k + 1 - 2 * k = 1 := by omega
        rw [this]
        simp

/-- C8: the finite-difference Jacobian estimator `_Jacobian`: shape
`(len(t), len(p))`; entry `(r, k)` is the central difference
`(f(t, p with p[k]+eps) - f(t, p with p[k]-eps)) / (2*eps)` with all other
parameter entries unchanged (and the caller's `p` untouched — the source
perturbs copies, embedded as the fresh list `perturbP`); the loop performs
exactly `2*len(p)` evaluations of `f`, listed in order by `jacobianEvals`. -/
theorem C8_Jacobian_central_difference (f : List ℝ → List ℝ → List ℝ)
    (t p : List ℝ) (eps : ℝ)
    (hf : ∀ q : List ℝ, (f t q).length = t.length) :
    (Jacobian f t p eps).length = t.length ∧
    (∀ row ∈ Jacobian f t p eps, row.length = p.length) ∧
    (∀ r k, r < t.length → k < p.length →
      ((Jacobian f t p eps).getD r []).getD k 0 =
        ((f t (p.take k ++ (p.getD k 0 + eps) :: p.drop (k + 1))).getD r 0
          - (f t (p.take k ++ (p.getD k 0 - eps) :: p.drop (k + 1))).getD r 0)
          / (2 * eps)) ∧
    (∀ k, (perturbP p k eps).length = p.length) ∧
    (∀ k j, j ≠ k → (perturbP p k eps).getD j 0 = p.getD j 0) ∧
    (jacobianEvals f t p eps).length = 2 * p.length ∧
    (∀ k, k < p.length →
      (jacobianEvals f t p eps).getD (2 * k) [] = f t (perturbP p k eps) ∧
      (jacobianEvals f t p eps).getD (2 * k + 1) [] = f t (perturbP p k (-eps))) := by
  refine ⟨by simp [Jacobian], ?_, ?_, ?_, ?_, ?_, ?_⟩
  · intro row hrow
    simp only [Jacobian, List.mem_map] at hrow
    obtain ⟨r, _, rfl⟩ := hrow
    simp
  · intro r k hr hk
    have hpp : perturbP p k eps
        = p.take k ++ (p.getD k 0 + eps) :: p.drop (k + 1) := by
      rw [perturbP, List.set_eq_take_cons_drop _ hk]
    have hpm : perturbP p k (-eps)
        = p.take k ++ (p.getD k 0 - eps) :: p.drop (k + 1) := by
      rw [perturbP, List.set_eq_take_cons_drop _ hk, sub_eq_add_neg]
    rw [Jacobian, getD_range_map _ t.length r hr, getD_range_map _ p.length k hk,
      Jcol, getD_zipWith _ _ _ r (by rw [hf]; exact hr) (by rw [hf]; exact hr),
      hpp, hpm]
  · intro k
    simp [perturbP]
  · intro k j hj
    exact perturbP_getD_ne p k j eps hj
  · exact (flatMap_pairs_spec (fun i => f t (perturbP p i eps))
      (fun i => f t (perturbP p i (-eps))) p.length).1
  · exact (flatMap_pairs_spec (fun i => f t (perturbP p i eps))
      (fun i => f t (perturbP p i (-eps))) p.length).2

/-- Witness for C8 with the linear model function
`f(t, p) = [t_i * p_0]` at `t = [1]`, `p = [2]`, `eps = 1`. -/
theorem C8_witness :
    (∀ q : List ℝ,
      ((fun (tl pl : List ℝ) => tl.map (fun x => x * pl.getD 0 0)) [(1 : ℝ)] q).length
        = ([(1 : ℝ)] : List ℝ).length) ∧
    (Jacobian (fun (tl pl : List ℝ) => tl.map (fun x => x * pl.getD 0 0))
        [(1 : ℝ)] [(2 : ℝ)] 1).length = ([(1 : ℝ)] : List ℝ).length :=
  ⟨fun q => by simp,
    (C8_Jacobian_central_difference
      (fun (tl pl : List ℝ) => tl.map (fun x => x * pl.getD 0 0))
      [(1 : ℝ)] [(2 : ℝ)] 1 (fun q => by simp)).1⟩

/-- Helper: every entry of the (spec-modelled) isotope-parameter registry has
strictly positive standard ratios. -/
theorem d47_isoparams_pos (name : String) (ps : IsoParams)
    (h : d47_isoparams name = some ps) :
    0 < ps.R13_vpdb ∧ 0 < ps.R18_vpdb ∧ 0 < ps.R17_vpdb := by
  unfold d47_isoparams at h
  split at h
  · injection h with h
    subst h
    norm_num [brand]
  · cases h

/-- C2 (amended): for every registered isotope-parameter name and all real
inputs with `d13C > -1000` and `d18O > -1000` (positive minor-isotope
ratios), the stochastic-ratio computation returns strictly positive
`R45, R46, R47`, and the fractional atomic abundances sum to `1` for each
element pair within `1e-10` (they sum to `1` exactly in real arithmetic). -/
theorem C2_stoch_ratios_pos (name : String) (ps : IsoParams)
    (hreg : d47_isoparams name = some ps) (d13C d18O : ℝ)
    (h13 : -1000 < d13C) (h18 : -1000 < d18O) :
    0 < (calc_R_stoch d13C d18O ps).1 ∧
    0 < (calc_R_stoch d13C d18O ps).2.1 ∧
    0 < (calc_R_stoch d13C d18O ps).2.2 ∧
    |f12_of d13C ps + f13_of d13C ps - 1| ≤ 1e-10 ∧
    |f16_of d18O ps + f17_of d18O ps + f18_of d18O ps - 1| ≤ 1e-10 := by
  obtain ⟨h1, h2, h3⟩ := d47_isoparams_pos name ps hreg
  have hR13 : 0 < R13_of d13C ps := by
    have h' : 0 < d13C / 1000 + 1 := by linarith
    exact mul_pos h' h1
  have hR18 : 0 < R18_of d18O ps := by
    have h' : 0 < d18O / 1000 + 1 := by linarith
    exact mul_pos h' h2
  have hR17 : 0 < R17_of d18O ps :=
    mul_pos h3 (Real.rpow_pos_of_pos (div_pos hR18 h2) ps.lam17)
  have hd13 : 0 < 1 + R13_of d13C ps := by linarith
  have hd18 : 0 < 1 + R17_of d18O ps + R18_of d18O ps := by linarith
  have hf12 : 0 < f12_of d13C ps := by
    unfold f12_of
    exact div_pos one_pos hd13
  have hf13 : 0 < f13_of d13C ps := by
    unfold f13_of
    exact mul_pos hR13 hf12
  have hf16 : 0 < f16_of d18O ps := by
    unfold f16_of
    exact div_pos one_pos hd18
  have hf17 : 0 < f17_of d18O ps := by
    unfold f17_of
    exact mul_pos hR17 hf16
  have hf18 : 0 < f18_of d18O ps := by
    unfold f18_of
    exact mul_pos hR18 hf16
  have hf44 : 0 < f44_of d13C d18O ps := by
    unfold f44_of
    exact mul_pos (mul_pos hf12 hf16) hf16
  have hf45 : 0 < f45_of d13C d18O ps := by
    unfold f45_of
    exact add_pos (mul_pos (mul_pos hf13 hf16) hf16)
      (mul_pos (mul_pos (mul_pos two_pos hf12) hf17) hf16)
  have hf46 : 0 < f46_of d13C d18O ps := by
    unfold f46_of
    exact add_pos (add_pos (mul_pos (mul_pos (mul_pos two_pos hf12) hf16) hf18)
        (mul_pos (mul_pos (mul_pos two_pos hf13) hf17) hf16))
      (mul_pos (mul_pos hf12 hf17) hf17)
  have hf47 : 0 < f47_of d13C d18O ps := by
    unfold f47_of
    exact add_pos (add_pos (mul_pos (mul_pos (mul_pos two_pos hf13) hf16) hf18)
        (mul_pos (mul_pos (mul_pos two_pos hf12) hf17) hf18))
      (mul_pos (mul_pos hf13 hf17) hf17)
  have hne13 : (1 + R13_of d13C ps) ≠ 0 := ne_of_gt hd13
  have hne18 : (1 + R17_of d18O ps + R18_of d18O ps) ≠ 0 := ne_of_gt hd18
  refine ⟨?_, ?_, ?_, ?_, ?_⟩
  · show 0 < f45_of d13C d18O ps / f44_of d13C d18O ps
    exact div_pos hf45 hf44
  · show 0 < f46_of d13C d18O ps / f44_of d13C d18O ps
    exact div_pos hf46 hf44
  · show 0 < f47_of d13C d18O ps / f44_of d13C d18O ps
    exact div_pos hf47 hf44
  · have hsum : f12_of d13C ps + f13_of d13C ps = 1 := by
      unfold f13_of f12_of
      field_simp
    rw [hsum]
    norm_num
  · have hsum : f16_of d18O ps + f17_of d18O ps + f18_of d18O ps = 1 := by
      unfold f18_of f17_of f16_of
      field_simp
    rw [hsum]
    norm_num

/-- C2 counterexample: at the registered name `'Brand'` and the real inputs
`(d13C, d18O) = (0, -1000)`, the computation does not return strictly
positive ratios: `R18 = 0`, hence `R17 = R17_vpdb * 0^0.528 = 0`, hence
`f17 = f18 = 0` and the returned `R46` is `0`. -/
theorem C2_counterexample :
    d47_isoparams brandName = some brand ∧
    (calc_R_stoch 0 (-1000) brand).2.1 = 0 := by
  refine ⟨by simp [d47_isoparams], ?_⟩
  have hR18 : R18_of (-1000) brand = 0 := by
    unfold R18_of
    norm_num
  have hR17 : R17_of (-1000) brand = 0 := by
    unfold R17_of
    rw [hR18, zero_div, Real.zero_rpow (by norm_num [brand])]
    ring
  show f46_of 0 (-1000) brand / f44_of 0 (-1000) brand = 0
  unfold f46_of f17_of f18_of
  rw [hR17, hR18]
  ring

/-- Witness for C2 at the registered name `'Brand'` and `d13C = d18O = 0`. -/
theorem C2_witness :
    d47_isoparams brandName = some brand ∧ (-1000 : ℝ) < 0 ∧
    0 < (calc_R_stoch 0 0 brand).1 :=
  ⟨by simp [d47_isoparams], by norm_num,
    (C2_stoch_ratios_pos brandName brand (by simp [d47_isoparams]) 0 0
      (by norm_num) (by norm_num)).1⟩

/-- C9: the Hea14 transient-defect model at `t = 0` returns exactly `1.0`, for
all parameter values: `ln G(0) = -kc*0 + (kd/k2)*(exp(0) - 1) = 0` and
`exp 0 = 1`. -/
theorem C9_fHea14_at_zero (lnkc lnkd lnk2 : ℝ) : fHea14 0 lnkc lnkd lnk2 = 1 := by
  simp [fHea14]

/-- C10: the equilibrium pair-ratio computation `_calc_Rpeq` is symmetric in
its first two arguments: swapping `R45` and `R46` swaps the two closed-form
pair expressions `pa` and `pb`, leaving their mean and the normalizer `f44`
unchanged. -/
theorem C10_calc_Rpeq_symm (R45 R46 R47 : ℝ) (z : ℕ) :
    calc_Rpeq R45 R46 R47 z = calc_Rpeq R46 R45 R47 z := by
  simp only [calc_Rpeq]
  ring

end Isoclump
